import Mathlib

/-!
Verification of the ICAP message parser of the rama repository
(src/rama-icap/src/parser.rs).

The parser is shallowly embedded: bytes are natural numbers below 256,
buffers are lists of bytes, Rust strings are lists of Unicode code points,
and every function of the source file MessageParser is translated to an
executable Lean definition.  Loops are rendered as fuel-indexed structural
recursions; in each case the fuel supplied at the call site dominates the
number of iterations the Rust loop can perform (each iteration consumes at
least one unit of the quantity the fuel is derived from), and the fuel-zero
branch coincides with the loop-exit behaviour, so the fuel never alters the
semantics.
-/

/-- Bytes of an ASCII string literal (all literals used are pure ASCII,
so the code points coincide with the UTF-8 bytes). -/
def str (s : String) : List Nat := s.data.map Char.toNat

/-- CRLF line terminator bytes. -/
def crlf : List Nat := [13, 10]

/-- ASCII decimal digit test. -/
def isDigit (c : Nat) : Bool := decide (48 ≤ c ∧ c ≤ 57)

/-- ASCII hexadecimal digit test. -/
def isHexDigit (c : Nat) : Bool :=
  decide ((48 ≤ c ∧ c ≤ 57) ∨ (97 ≤ c ∧ c ≤ 102) ∨ (65 ≤ c ∧ c ≤ 70))

/-- Value of an ASCII hexadecimal digit. -/
def hexVal (c : Nat) : Nat :=
  if 48 ≤ c ∧ c ≤ 57 then c - 48
  else if 97 ≤ c ∧ c ≤ 102 then c - 87
  else c - 55

/-- Decimal value of a nonempty all-digit code point list, as Rust integer
parsing computes it (no sign handled here). -/
def decNat : List Nat → Option Nat
  | [] => none
  | l =>
    if l.all isDigit then
      some (l.foldl (fun acc c => acc * 10 + (c - 48)) 0)
    else none

/-- Hexadecimal value of a nonempty all-hex-digit code point list. -/
def hexNat : List Nat → Option Nat
  | [] => none
  | l =>
    if l.all isHexDigit then
      some (l.foldl (fun acc c => acc * 16 + hexVal c) 0)
    else none

/-- Rust u16 from-string parsing: an optional leading plus sign, then at
least one decimal digit, value within 16 bits (overflow is an error). -/
def parseU16 (l : List Nat) : Option Nat :=
  let body := match l with
    | 43 :: rest => rest
    | _ => l
  match decNat body with
  | some v => if v ≤ 65535 then some v else none
  | none => none

/-- Rust usize from-string parsing (64-bit): optional leading plus sign,
then at least one decimal digit, value within 64 bits. -/
def parseUSize (l : List Nat) : Option Nat :=
  let body := match l with
    | 43 :: rest => rest
    | _ => l
  match decNat body with
  | some v => if v ≤ 18446744073709551615 then some v else none
  | none => none

/-- Rust usize from-str-radix 16: optional leading plus sign, then at least
one hexadecimal digit, value within 64 bits. -/
def parseHexUSize (l : List Nat) : Option Nat :=
  let body := match l with
    | 43 :: rest => rest
    | _ => l
  match hexNat body with
  | some v => if v ≤ 18446744073709551615 then some v else none
  | none => none

/-- Code points with the Unicode White_Space property, the set removed by
the trim method of Rust strings. -/
def isRustWhitespace (c : Nat) : Bool :=
  decide (c ∈ [9, 10, 11, 12, 13, 32, 133, 160, 5760, 8192, 8193, 8194,
    8195, 8196, 8197, 8198, 8199, 8200, 8201, 8202, 8232, 8233, 8239,
    8287, 12288])

/-- Rust str trim: drop Unicode whitespace from both ends. -/
def rustTrim (l : List Nat) : List Nat :=
  ((l.dropWhile isRustWhitespace).reverse.dropWhile isRustWhitespace).reverse

/-- UTF-8 continuation byte test. -/
def isCont (b : Nat) : Bool := decide (128 ≤ b ∧ b ≤ 191)

/-- Valid second byte of a three-byte UTF-8 sequence with the given lead
byte (excludes overlong encodings and surrogates, as Rust does). -/
def ok3 (b0 b1 : Nat) : Bool :=
  if b0 = 224 then decide (160 ≤ b1 ∧ b1 ≤ 191)
  else if b0 = 237 then decide (128 ≤ b1 ∧ b1 ≤ 159)
  else isCont b1

/-- Valid second byte of a four-byte UTF-8 sequence with the given lead
byte. -/
def ok4 (b0 b1 : Nat) : Bool :=
  if b0 = 240 then decide (144 ≤ b1 ∧ b1 ≤ 191)
  else if b0 = 244 then decide (128 ≤ b1 ∧ b1 ≤ 143)
  else isCont b1

/-- Strict UTF-8 decoding of bytes to code points, as Rust
str-from-utf8: any ill-formed sequence fails.  The fuel dominates the byte
count; every step consumes at least one byte. -/
def utf8DecodeGo : Nat → List Nat → Option (List Nat)
  | _, [] => some []
  | 0, _ :: _ => none
  | fuel + 1, b0 :: rest =>
    if b0 ≤ 127 then (utf8DecodeGo fuel rest).map (fun t => b0 :: t)
    else if 194 ≤ b0 ∧ b0 ≤ 223 then
      match rest with
      | b1 :: rest2 =>
        if isCont b1 then
          (utf8DecodeGo fuel rest2).map
            (fun t => ((b0 - 192) * 64 + (b1 - 128)) :: t)
        else none
      | [] => none
    else if 224 ≤ b0 ∧ b0 ≤ 239 then
      match rest with
      | b1 :: b2 :: rest3 =>
        if ok3 b0 b1 ∧ isCont b2 then
          (utf8DecodeGo fuel rest3).map
            (fun t => ((b0 - 224) * 4096 + (b1 - 128) * 64 + (b2 - 128)) :: t)
        else none
      | _ => none
    else if 240 ≤ b0 ∧ b0 ≤ 244 then
      match rest with
      | b1 :: b2 :: b3 :: rest4 =>
        if ok4 b0 b1 ∧ isCont b2 ∧ isCont b3 then
          (utf8DecodeGo fuel rest4).map
            (fun t => ((b0 - 240) * 262144 + (b1 - 128) * 4096 +
              (b2 - 128) * 64 + (b3 - 128)) :: t)
        else none
      | _ => none
    else none

/-- Strict UTF-8 decoding, fuel instantiated with the byte count. -/
def utf8Decode (l : List Nat) : Option (List Nat) := utf8DecodeGo l.length l

/-- Lossy UTF-8 decoding of bytes to code points, as Rust
from-utf8-lossy: each maximal ill-formed subpart becomes U+FFFD (65533).
Every step consumes at least one byte, so the fuel (the byte count)
dominates. -/
def utf8LossyGo : Nat → List Nat → List Nat
  | _, [] => []
  | 0, _ :: _ => []
  | fuel + 1, b0 :: rest =>
    if b0 ≤ 127 then b0 :: utf8LossyGo fuel rest
    else if 194 ≤ b0 ∧ b0 ≤ 223 then
      match rest with
      | b1 :: rest2 =>
        if isCont b1 then
          ((b0 - 192) * 64 + (b1 - 128)) :: utf8LossyGo fuel rest2
        else 65533 :: utf8LossyGo fuel rest
      | [] => [65533]
    else if 224 ≤ b0 ∧ b0 ≤ 239 then
      match rest with
      | b1 :: rest2 =>
        if ok3 b0 b1 then
          match rest2 with
          | b2 :: rest3 =>
            if isCont b2 then
              ((b0 - 224) * 4096 + (b1 - 128) * 64 + (b2 - 128)) ::
                utf8LossyGo fuel rest3
            else 65533 :: utf8LossyGo fuel rest2
          | [] => [65533]
        else 65533 :: utf8LossyGo fuel rest
      | [] => [65533]
    else if 240 ≤ b0 ∧ b0 ≤ 244 then
      match rest with
      | b1 :: rest2 =>
        if ok4 b0 b1 then
          match rest2 with
          | b2 :: rest3 =>
            if isCont b2 then
              match rest3 with
              | b3 :: rest4 =>
                if isCont b3 then
                  ((b0 - 240) * 262144 + (b1 - 128) * 4096 +
                    (b2 - 128) * 64 + (b3 - 128)) :: utf8LossyGo fuel rest4
                else 65533 :: utf8LossyGo fuel rest3
              | [] => [65533]
            else 65533 :: utf8LossyGo fuel rest2
          | [] => [65533]
        else 65533 :: utf8LossyGo fuel rest
      | [] => [65533]
    else 65533 :: utf8LossyGo fuel rest

/-- Lossy UTF-8 decoding, fuel instantiated with the byte count. -/
def lossyDecode (l : List Nat) : List Nat := utf8LossyGo l.length l

/-- Split a byte list at every occurrence of the separator, keeping empty
segments, as the Rust slice and str split methods do. -/
def splitOnByte (c : Nat) : List Nat → List (List Nat)
  | [] => [[]]
  | b :: bs =>
    let r := splitOnByte c bs
    if b = c then [] :: r
    else
      match r with
      | h :: t => (b :: h) :: t
      | [] => [[b]]

/-- Split a byte list at the first occurrence of the separator, as Rust
splitn with count two: the second component is none when the separator is
absent. -/
def splitFirst (c : Nat) : List Nat → (List Nat × Option (List Nat))
  | [] => ([], none)
  | b :: bs =>
    if b = c then ([], some bs)
    else
      let r := splitFirst c bs
      (b :: r.1, r.2)

/-- Index of the first LF byte of the buffer, if any. -/
def findLF : List Nat → Option Nat
  | [] => none
  | b :: bs => if b = 10 then some 0 else (findLF bs).map (· + 1)

/-- Drop one trailing CR, as MessageParser::read_line does after cutting at
the LF. -/
def stripCR (l : List Nat) : List Nat :=
  if l.getLast? = some 13 then l.dropLast else l

/-- MessageParser::read_line: cut the buffer at the first LF, strip a
trailing CR from the extracted line, and advance the buffer past the LF.
Returns no line when the buffer holds no LF.  The Rust signature is a
Result but no error is ever produced. -/
def readLine (buf : List Nat) : Option (List Nat) × List Nat :=
  match findLF buf with
  | some i => (some (stripCR (buf.take i)), buf.drop (i + 1))
  | none => (none, buf)

/-- Valid header-name byte per the table of the http crate used by
HeaderName::from_bytes: RFC 7230 token characters. -/
def isTokenChar (c : Nat) : Bool :=
  isDigit c || decide (97 ≤ c ∧ c ≤ 122) || decide (65 ≤ c ∧ c ≤ 90) ||
    decide (c ∈ [33, 35, 36, 37, 38, 39, 42, 43, 45, 46, 94, 95, 96, 124, 126])

/-- ASCII lowercasing of one code point. -/
def asciiLower (c : Nat) : Nat := if 65 ≤ c ∧ c ≤ 90 then c + 32 else c

/-- Modelled from the spec: HeaderName::from_bytes of the header types
crate (code of this repository not under src/).  Per the data model of the
spec, header names are canonicalized case-insensitively while remaining
valid per RFC 7230 token rules: a nonempty all-token-character name is
accepted and stored ASCII-lowercased, anything else is rejected. -/
def headerNameFromBytes (l : List Nat) : Option (List Nat) :=
  if l ≠ [] ∧ l.all isTokenChar then some (l.map asciiLower) else none

/-- Modelled from the spec: validity of a parsed header value (HeaderValue
of the header types crate, code of this repository not under src/): visible
characters, spaces and horizontal tabs are allowed, other control
characters are not. -/
def headerValueOk (v : List Nat) : Bool :=
  v.all (fun c => decide (c = 9 ∨ (32 ≤ c ∧ c ≠ 127)))

/-- Modelled from the spec: lookup in the header map (HeaderMap of the
header types crate, code of this repository not under src/), a mapping
keyed by the canonical lowercased name. -/
def headerGet : List (List Nat × List Nat) → List Nat → Option (List Nat)
  | [], _ => none
  | h :: t, k => if h.1 = k then some h.2 else headerGet t k

/-- Modelled from the spec: insertion into the header map (HeaderMap of
the header types crate, code of this repository not under src/).  The map
holds one value per canonical name, so inserting an existing name replaces
its value; a new name is appended. -/
def insertHeader : List (List Nat × List Nat) → List Nat → List Nat →
    List (List Nat × List Nat)
  | [], k, v => [(k, v)]
  | h :: t, k, v => if h.1 = k then (k, v) :: t else h :: insertHeader t k v

/-- ICAP message kind section identifiers, as the SectionType enumeration
of the crate. -/
inductive SectionType where
  | NullBody
  | RequestHeader
  | RequestBody
  | ResponseHeader
  | ResponseBody
  | OptionsBody
deriving DecidableEq, Repr

/-- Lookup in the section map (HashMap keyed by SectionType). -/
def secGet : List (SectionType × List Nat) → SectionType → Option (List Nat)
  | [], _ => none
  | h :: t, k => if h.1 = k then some h.2 else secGet t k

/-- Insertion into the section map, replacing an existing key. -/
def secInsert : List (SectionType × List Nat) → SectionType → List Nat →
    List (SectionType × List Nat)
  | [], k, v => [(k, v)]
  | h :: t, k, v => if h.1 = k then (k, v) :: t else h :: secInsert t k v

/-- Key-presence test in the section map. -/
def secContains (m : List (SectionType × List Nat)) (k : SectionType) : Bool :=
  (secGet m k).isSome

/-- Parser states, as the State enumeration of the crate. -/
inductive State where
  | StartLine
  | Headers
  | EncapsulatedHeader
  | Body
  | Complete
deriving DecidableEq, Repr

/-- ICAP request methods. -/
inductive Method where
  | ReqMod
  | RespMod
  | Options
deriving DecidableEq, Repr

/-- ICAP protocol versions. -/
inductive Version where
  | V1_0
  | V1_1
deriving DecidableEq, Repr

/-- Parse errors, as the Error enumeration of the crate; the header
constructor stands for errors converted from the header types crate. -/
inductive Error where
  | invalidMethod (msg : String)
  | invalidVersion (msg : String)
  | invalidStatus
  | invalidFormat (msg : String)
  | protocol (msg : String)
  | header
deriving DecidableEq, Repr

/-- Encapsulation variants, as the Encapsulated enumeration of the crate;
the HTTP header sections carry Request::default() and Response::default()
placeholders in the source, modelled by a unit. -/
inductive Encapsulated where
  | NullBody
  | Options (body : Option (List Nat))
  | RequestOnly (header : Option Unit) (body : Option (List Nat))
  | ResponseOnly (header : Option Unit) (body : Option (List Nat))
  | RequestResponse (reqHeader : Option Unit) (reqBody : Option (List Nat))
      (resHeader : Option Unit) (resBody : Option (List Nat))
deriving DecidableEq, Repr

/-- Parsed ICAP messages; URIs, reasons and header values are lists of
code points of the corresponding Rust strings. -/
inductive IcapMessage where
  | Request (method : Method) (uri : List Nat) (version : Version)
      (headers : List (List Nat × List Nat)) (encapsulated : Encapsulated)
  | Response (version : Version) (status : Nat) (reason : List Nat)
      (headers : List (List Nat × List Nat)) (encapsulated : Encapsulated)
deriving DecidableEq, Repr

/-- The mutable state of MessageParser. -/
structure MessageParser where
  state : State
  headers : List (List Nat × List Nat)
  encapsulated : List (SectionType × List Nat)
  buffer : List Nat
  method : Option Method
  uri : Option (List Nat)
  version : Option Version
  status : Option Nat
  reason : Option (List Nat)
  sections : List (SectionType × Nat)
deriving DecidableEq, Repr

/-- MessageParser::new. -/
def MessageParser.new : MessageParser :=
  ⟨State.StartLine, [], [], [], none, none, none, none, none, []⟩

/-- MessageParser::parse_version: a token shorter than eight bytes is no
version (the line will be treated as a request); the first two match arms
compare only the first eight bytes, ignoring any trailing bytes; an
eight-byte-or-longer token beginning with the five bytes of ICAP/ that
matches neither is an invalid-version error. -/
def parseVersion (tok : List Nat) : Except Error (Option Version) :=
  if tok.length < 8 then Except.ok none
  else if tok.take 8 = str ("ICAP/1.0") then Except.ok (some Version.V1_0)
  else if tok.take 8 = str ("ICAP/1.1") then Except.ok (some Version.V1_1)
  else if tok.take 5 = str ("ICAP/") then
    Except.error (Error.invalidVersion ("Invalid version"))
  else Except.ok none

/-- MessageParser::parse_start_line: read one line; an absent or empty
line yields false (need more data; the empty line is consumed); otherwise
the line splits on single spaces into exactly three tokens, classified as
a response when token zero parses as a version, as a request otherwise. -/
def parseStartLine (p : MessageParser) : Except Error (Bool × MessageParser) :=
  match readLine p.buffer with
  | (none, _) => Except.ok (false, p)
  | (some line, rest) =>
    if line = [] then Except.ok (false, { p with buffer := rest })
    else
      match splitOnByte 32 line with
      | [t0, t1, t2] =>
        match parseVersion t0 with
        | Except.error e => Except.error e
        | Except.ok (some v) =>
          match utf8Decode t1 with
          | none => Except.error Error.invalidStatus
          | some s1 =>
            match parseU16 s1 with
            | none => Except.error Error.invalidStatus
            | some st =>
              match utf8Decode t2 with
              | none => Except.error (Error.invalidFormat ("Invalid reason"))
              | some r =>
                Except.ok (true, { p with
                  buffer := rest
                  version := some v
                  status := some st
                  reason := some r })
        | Except.ok none =>
          match (if t0 = str ("REQMOD") then some Method.ReqMod
            else if t0 = str ("RESPMOD") then some Method.RespMod
            else if t0 = str ("OPTIONS") then some Method.Options
            else none) with
          | none => Except.error (Error.invalidMethod ("Invalid method"))
          | some m =>
            match utf8Decode t1 with
            | none => Except.error (Error.invalidFormat ("Invalid URI"))
            | some u =>
              match parseVersion t2 with
              | Except.error e => Except.error e
              | Except.ok (some v) =>
                Except.ok (true, { p with
                  buffer := rest
                  method := some m
                  uri := some u
                  version := some v })
              | Except.ok none =>
                Except.error (Error.invalidVersion ("Invalid version"))
      | _ => Except.error (Error.invalidMethod ("Incomplete message received"))

/-- MessageParser::parse_headers: read lines until the empty line that
terminates the header block.  The found flag records whether an
Encapsulated header was seen among the lines of this call (a local
variable in the source, reset on every call).  On the empty line a
request with method ReqMod or RespMod and no Encapsulated header is a
protocol error; a response or an Options request passes.  Each header
line splits at the first colon; the raw pre-colon name may hold at most
100 bytes and the raw post-colon value at most 4096 bytes (both checked
before any trimming); the name is canonicalized, the value is decoded
lossily and trimmed, and after insertion more than 100 stored headers is
an error.  The fuel dominates the buffer length and every iteration
consumes at least one buffer byte, so the fuel-zero branch (which mirrors
the absent-line exit) is never taken. -/
def parseHeadersGo : Nat → MessageParser → Bool →
    Except Error (Bool × MessageParser)
  | 0, p, _ => Except.ok (false, p)
  | fuel + 1, p, found =>
    match readLine p.buffer with
    | (none, _) => Except.ok (false, p)
    | (some line, rest) =>
      let p1 : MessageParser := { p with buffer := rest }
      if line = [] then
        if found then
          Except.ok (true, { p1 with state := State.EncapsulatedHeader })
        else if p1.status.isSome then
          Except.ok (true, { p1 with state := State.EncapsulatedHeader })
        else
          match p1.method with
          | some Method.Options =>
            Except.ok (true, { p1 with state := State.EncapsulatedHeader })
          | some _ =>
            Except.error (Error.protocol ("Missing encapsulated header"))
          | none =>
            Except.ok (true, { p1 with state := State.EncapsulatedHeader })
      else
        match splitFirst 58 line with
        | (_, none) => Except.error (Error.invalidFormat ("Missing header value"))
        | (name, some value) =>
          if name.length > 100 then
            Except.error (Error.protocol ("Message too large"))
          else if value.length > 4096 then
            Except.error (Error.protocol ("Message too large"))
          else
            match headerNameFromBytes name with
            | none => Except.error Error.header
            | some cname =>
              let vstr := rustTrim (lossyDecode value)
              if headerValueOk vstr then
                let found2 := found || (cname = str ("encapsulated") : Bool)
                let hs := insertHeader p1.headers cname vstr
                if hs.length > 100 then
                  Except.error (Error.protocol ("Message too large"))
                else parseHeadersGo fuel { p1 with headers := hs } found2
              else Except.error Error.header

/-- MessageParser::parse_headers with its fuel instantiated. -/
def parseHeaders (p : MessageParser) : Except Error (Bool × MessageParser) :=
  parseHeadersGo (p.buffer.length + 1) p false

/-- Table of Encapsulated section names, as the match of
MessageParser::parse_encapsulated. -/
def sectionTypeOfName (n : List Nat) : Option SectionType :=
  if n = str ("null-body") then some SectionType.NullBody
  else if n = str ("req-hdr") then some SectionType.RequestHeader
  else if n = str ("req-body") then some SectionType.RequestBody
  else if n = str ("res-hdr") then some SectionType.ResponseHeader
  else if n = str ("res-body") then some SectionType.ResponseBody
  else if n = str ("opt-body") then some SectionType.OptionsBody
  else none

/-- One item of the Encapsulated header value: the item is trimmed, split
on the equals sign, the name part trimmed and lowercased (the source uses
Unicode lowercasing, which agrees with ASCII lowercasing on every name the
table can match), the offset part parsed as usize with no trimming.  The
offset is parsed before the name is matched, as in the source. -/
def parseSectionItem (s : List Nat) : Except Error (SectionType × Nat) :=
  let parts := splitOnByte 61 (rustTrim s)
  match parts with
  | [] => Except.error (Error.protocol ("Missing header name"))
  | namePart :: restParts =>
    let name := (rustTrim namePart).map asciiLower
    match restParts with
    | [] => Except.error (Error.protocol ("Missing header value"))
    | off :: _ =>
      match parseUSize off with
      | none => Except.error (Error.protocol ("Invalid header value offset"))
      | some o =>
        match sectionTypeOfName name with
        | some st => Except.ok (st, o)
        | none => Except.error (Error.protocol ("Invalid encapsulated header"))

/-- All items of the Encapsulated header value, failing on the first bad
item as the source loop does. -/
def parseSectionsList : List (List Nat) → Except Error (List (SectionType × Nat))
  | [] => Except.ok []
  | s :: rest =>
    match parseSectionItem s with
    | Except.error e => Except.error e
    | Except.ok x =>
      match parseSectionsList rest with
      | Except.error e => Except.error e
      | Except.ok xs => Except.ok (x :: xs)

/-- Stable insertion by ascending offset. -/
def insertSorted (x : SectionType × Nat) :
    List (SectionType × Nat) → List (SectionType × Nat)
  | [] => [x]
  | y :: ys => if y.2 ≤ x.2 then y :: insertSorted x ys else x :: y :: ys

/-- Stable sort by ascending offset, as sort_by_key of the source. -/
def sortSections : List (SectionType × Nat) → List (SectionType × Nat)
  | [] => []
  | x :: xs => insertSorted x (sortSections xs)

/-- MessageParser::parse_encapsulated: when an Encapsulated header is
stored, parse its comma-separated items, sort them by offset, record the
table and seed the section map with empty payloads (the existing map and
table are not cleared first); without the header nothing changes.  Either
way the state advances to Body.  The stored value came from a Rust string,
so the to_str call of the source cannot fail and is not modelled. -/
def parseEncapsulated (p : MessageParser) : Except Error (Bool × MessageParser) :=
  match headerGet p.headers (str ("encapsulated")) with
  | none => Except.ok (true, { p with state := State.Body })
  | some enc =>
    match parseSectionsList (splitOnByte 44 enc) with
    | Except.error e => Except.error e
    | Except.ok secs =>
      let sorted := sortSections secs
      let encMap := sorted.foldl (fun m s => secInsert m s.1 []) p.encapsulated
      Except.ok (true, { p with
        encapsulated := encMap
        sections := sorted
        state := State.Body })

/-- Chunk size line reader of MessageParser::parse_body: consume bytes
from pos until a CRLF pair whose LF still lies inside the range, pushing
every consumed byte (including a lone CR) onto the size string.  Returns
the size string and the new position.  The fuel dominates the range end
and every iteration consumes one byte, so the fuel-zero branch (which
mirrors the range-end exit) is never taken. -/
def readSizeLineGo (buf : List Nat) (endOff : Nat) :
    Nat → Nat → List Nat → (List Nat × Nat)
  | 0, pos, acc => (acc, pos)
  | fuel + 1, pos, acc =>
    if pos < endOff then
      let b := buf.getD pos 0
      if b = 13 ∧ pos + 1 < endOff ∧ buf.getD (pos + 1) 0 = 10 then
        (acc, pos + 2)
      else readSizeLineGo buf endOff fuel (pos + 1) (acc ++ [b])
    else (acc, pos)

/-- Chunked-body decoder of MessageParser::parse_body over the byte range
from pos to endOff: read a size line, parse it as trimmed hexadecimal (a
failure is an invalid-chunk-size protocol error), stop successfully on a
zero size, report need-more-data (none) when the chunk data plus its CRLF
would overrun the range, otherwise append the data, require the CRLF and
continue.  Reaching the end of the range outside a chunk stops
successfully with whatever data was accumulated, without requiring a
terminating zero chunk.  Every iteration advances pos, so the fuel
(endOff plus one) dominates and its zero branch mirrors the range-end
exit. -/
def decodeChunksGo (buf : List Nat) (endOff : Nat) :
    Nat → Nat → List Nat → Except Error (Option (List Nat))
  | 0, _, acc => Except.ok (some acc)
  | fuel + 1, pos, acc =>
    if pos < endOff then
      match readSizeLineGo buf endOff endOff pos [] with
      | (sizeStr, pos1) =>
        match parseHexUSize (rustTrim sizeStr) with
        | none => Except.error (Error.protocol ("Invalid chunk size"))
        | some size =>
          if size = 0 then Except.ok (some acc)
          else if pos1 + size + 2 > endOff then Except.ok none
          else
            let data := (buf.drop pos1).take size
            let pos2 := pos1 + size
            if pos2 + 2 ≤ endOff ∧ buf.getD pos2 0 = 13 ∧
                buf.getD (pos2 + 1) 0 = 10 then
              decodeChunksGo buf endOff fuel (pos2 + 2) (acc ++ data)
            else Except.error (Error.protocol ("Invalid chunk encoding"))
    else Except.ok (some acc)

/-- Section loop of MessageParser::parse_body: each table entry spans from
its offset to the next offset (the buffer end for the last entry).  A
start offset beyond the buffer aborts the whole pass with need-more-data;
a start offset equal to the buffer length skips the entry.  Request and
response body sections are chunk-decoded, every other kind is copied raw;
the payload is stored only when the section map already holds the key.
Updates made before an abort are kept, as the source mutates the map in
place. -/
def processSections (buf : List Nat) :
    List (SectionType × Nat) → List (SectionType × List Nat) →
    Except Error (Bool × List (SectionType × List Nat))
  | [], m => Except.ok (true, m)
  | (st, start) :: rest, m =>
    let endOff := match rest with
      | [] => buf.length
      | (_, o) :: _ => o
    if buf.length < start then Except.ok (false, m)
    else if start < buf.length then
      let dataRes : Except Error (Option (List Nat)) :=
        if st = SectionType.RequestBody ∨ st = SectionType.ResponseBody then
          decodeChunksGo buf endOff (endOff + 1) start []
        else Except.ok (some ((buf.take (min endOff buf.length)).drop start))
      match dataRes with
      | Except.error e => Except.error e
      | Except.ok none => Except.ok (false, m)
      | Except.ok (some d) =>
        let m2 := if secContains m st then secInsert m st d else m
        processSections buf rest m2
    else processSections buf rest m

/-- MessageParser::parse_body, threading the section map through the
section loop and advancing to Complete on success. -/
def parseBody (p : MessageParser) : Except Error (Bool × MessageParser) :=
  match processSections p.buffer p.sections p.encapsulated with
  | Except.error e => Except.error e
  | Except.ok (false, m) => Except.ok (false, { p with encapsulated := m })
  | Except.ok (true, m) =>
    Except.ok (true, { p with encapsulated := m, state := State.Complete })

/-- MessageParser::build_encapsulated: classify the encapsulation variant
from the keys present in the section map, in the priority order of the
source match: null body, options body, request-response, request only,
response only, null body. -/
def buildEncapsulated (p : MessageParser) : Encapsulated :=
  let hReqH := secContains p.encapsulated SectionType.RequestHeader
  let hReqB := secContains p.encapsulated SectionType.RequestBody
  let hResH := secContains p.encapsulated SectionType.ResponseHeader
  let hResB := secContains p.encapsulated SectionType.ResponseBody
  let hOptB := secContains p.encapsulated SectionType.OptionsBody
  let hNull := secContains p.encapsulated SectionType.NullBody
  if hNull then Encapsulated.NullBody
  else if hOptB then
    Encapsulated.Options (secGet p.encapsulated SectionType.OptionsBody)
  else if (hReqH && hResH) || (hReqB && hResH) ||
      (hReqH && hResB) || (hReqB && hResB) then
    Encapsulated.RequestResponse
      (if hReqH then some () else none)
      (secGet p.encapsulated SectionType.RequestBody)
      (if hResH then some () else none)
      (secGet p.encapsulated SectionType.ResponseBody)
  else if hReqH || hReqB then
    Encapsulated.RequestOnly
      (if hReqH then some () else none)
      (secGet p.encapsulated SectionType.RequestBody)
  else if hResH || hResB then
    Encapsulated.ResponseOnly
      (if hResH then some () else none)
      (secGet p.encapsulated SectionType.ResponseBody)
  else Encapsulated.NullBody

/-- MessageParser::build_message: a method without a status builds a
request, a status without a method builds a response, anything else is a
protocol error.  The unwraps of the source fire only in states where
parse_start_line has set the corresponding fields; they are rendered with
defaults that those states never expose. -/
def buildMessage (p : MessageParser) : Except Error IcapMessage :=
  match p.method, p.status with
  | some m, none =>
    Except.ok (IcapMessage.Request m (p.uri.getD [])
      (p.version.getD Version.V1_0) p.headers (buildEncapsulated p))
  | none, some st =>
    Except.ok (IcapMessage.Response (p.version.getD Version.V1_0) st
      (p.reason.getD []) p.headers (buildEncapsulated p))
  | _, _ => Except.error (Error.protocol ("Invalid message"))

/-- Complete arm of the MessageParser::parse loop: build the message,
return to StartLine and clear the header map, the section map and the
whole receive buffer.  The method, uri, version, status, reason and
sections fields are not cleared, exactly as in the source. -/
def runComplete (p : MessageParser) :
    Except Error (Option IcapMessage × MessageParser) :=
  match buildMessage p with
  | Except.error e => Except.error e
  | Except.ok m =>
    Except.ok (some m, { p with
      state := State.StartLine
      headers := []
      encapsulated := []
      buffer := [] })

/-- Body arm of the MessageParser::parse loop. -/
def runBody (p : MessageParser) :
    Except Error (Option IcapMessage × MessageParser) :=
  match parseBody p with
  | Except.error e => Except.error e
  | Except.ok (false, p1) => Except.ok (none, p1)
  | Except.ok (true, p1) => runComplete { p1 with state := State.Complete }

/-- EncapsulatedHeader arm of the MessageParser::parse loop. -/
def runEncapsulated (p : MessageParser) :
    Except Error (Option IcapMessage × MessageParser) :=
  match parseEncapsulated p with
  | Except.error e => Except.error e
  | Except.ok (false, p1) => Except.ok (none, p1)
  | Except.ok (true, p1) => runBody { p1 with state := State.Body }

/-- Headers arm of the MessageParser::parse loop. -/
def runHeaders (p : MessageParser) :
    Except Error (Option IcapMessage × MessageParser) :=
  match parseHeaders p with
  | Except.error e => Except.error e
  | Except.ok (false, p1) => Except.ok (none, p1)
  | Except.ok (true, p1) => runEncapsulated { p1 with state := State.EncapsulatedHeader }

/-- StartLine arm of the MessageParser::parse loop. -/
def runStartLine (p : MessageParser) :
    Except Error (Option IcapMessage × MessageParser) :=
  match parseStartLine p with
  | Except.error e => Except.error e
  | Except.ok (false, p1) => Except.ok (none, p1)
  | Except.ok (true, p1) => runHeaders { p1 with state := State.Headers }

/-- The loop of MessageParser::parse, unrolled: within one call the state
only ever advances along StartLine, Headers, EncapsulatedHeader, Body,
Complete, and the Complete arm returns, so the loop runs each arm at most
once, in order, starting from the current state. -/
def parseFrom (p : MessageParser) :
    Except Error (Option IcapMessage × MessageParser) :=
  match p.state with
  | State.StartLine => runStartLine p
  | State.Headers => runHeaders p
  | State.EncapsulatedHeader => runEncapsulated p
  | State.Body => runBody p
  | State.Complete => runComplete p

/-- MessageParser::parse: append the pushed bytes to the receive buffer
and run the state machine.  The mutable Rust receiver is rendered as a
returned parser value. -/
def parse (p : MessageParser) (input : List Nat) :
    Except Error (Option IcapMessage × MessageParser) :=
  parseFrom { p with buffer := p.buffer ++ input }

/-- Completion observer: the parse call returned a message. -/
def completes (r : Except Error (Option IcapMessage × MessageParser)) : Bool :=
  match r with
  | Except.ok (some _, _) => true
  | _ => false

/-- Message-too-large observer on a parse result. -/
def isTooLarge (r : Except Error (Option IcapMessage × MessageParser)) : Bool :=
  match r with
  | Except.error (Error.protocol s) => s == "Message too large"
  | _ => false

/-- A buffer without LF has no line. -/
theorem findLF_eq_none {l : List Nat} (h : ∀ b ∈ l, b ≠ 10) :
    findLF l = none := by
  induction l with
  | nil => rfl
  | cons a t ih =>
    simp only [findLF]
    rw [if_neg (h a (List.mem_cons_self a t))]
    rw [ih (fun b hb => h b (List.mem_cons_of_mem a hb))]
    rfl

/-- Position of the first LF after an LF-free block. -/
theorem findLF_append {A : List Nat} (rest : List Nat)
    (h : ∀ b ∈ A, b ≠ 10) : findLF (A ++ 10 :: rest) = some A.length := by
  induction A with
  | nil => simp [findLF]
  | cons a t ih =>
    simp only [List.cons_append, findLF, List.append_eq]
    rw [if_neg (h a (List.mem_cons_self a t))]
    rw [ih (fun b hb => h b (List.mem_cons_of_mem a hb))]
    rfl

/-- The line reader on a buffer beginning with a CRLF-terminated LF-free
line yields that line and the remainder. -/
theorem readLine_crlf (A rest : List Nat) (h : ∀ b ∈ A, b ≠ 10) :
    readLine (A ++ 13 :: 10 :: rest) = (some A, rest) := by
  have h13 : ∀ b ∈ A ++ [13], b ≠ 10 := by
    intro b hb
    rcases List.mem_append.mp hb with h1 | h1
    · exact h b h1
    · rw [List.mem_singleton.mp h1]; decide
  have hf : findLF (A ++ 13 :: 10 :: rest) = some (A.length + 1) := by
    have he : A ++ 13 :: 10 :: rest = (A ++ [13]) ++ 10 :: rest := by simp
    rw [he, findLF_append rest h13]
    simp
  have ht : (A ++ 13 :: 10 :: rest).take (A.length + 1) = A ++ [13] :=
    calc (A ++ 13 :: 10 :: rest).take (A.length + 1)
        = A ++ (13 :: 10 :: rest).take 1 := List.take_append 1
      _ = A ++ [13] := rfl
  have hd : (A ++ 13 :: 10 :: rest).drop (A.length + 1 + 1) = rest :=
    calc (A ++ 13 :: 10 :: rest).drop (A.length + 2)
        = (13 :: 10 :: rest).drop 2 := List.drop_append 2
      _ = rest := rfl
  have hs : stripCR (A ++ [13]) = A := by
    simp [stripCR]
  rw [readLine, hf]
  simp only [ht, hd, hs]

/-- Splitting a list free of the separator yields one segment. -/
theorem splitOnByte_no_sep {c : Nat} {l : List Nat} (h : ∀ b ∈ l, b ≠ c) :
    splitOnByte c l = [l] := by
  induction l with
  | nil => rfl
  | cons a t ih =>
    simp only [splitOnByte]
    rw [if_neg (h a (List.mem_cons_self a t))]
    rw [ih (fun b hb => h b (List.mem_cons_of_mem a hb))]

/-- Splitting past a separator-free block peels off that block. -/
theorem splitOnByte_sep (c : Nat) (A rest : List Nat)
    (h : ∀ b ∈ A, b ≠ c) :
    splitOnByte c (A ++ c :: rest) = A :: splitOnByte c rest := by
  induction A with
  | nil => simp [splitOnByte]
  | cons a t ih =>
    simp only [List.cons_append, splitOnByte, List.append_eq]
    rw [if_neg (h a (List.mem_cons_self a t))]
    rw [ih (fun b hb => h b (List.mem_cons_of_mem a hb))]

/-- Header-map lookup after insertion of the same key. -/
theorem headerGet_insertHeader (hs : List (List Nat × List Nat))
    (k v : List Nat) : headerGet (insertHeader hs k v) k = some v := by
  induction hs with
  | nil => simp [insertHeader, headerGet]
  | cons hd t ih =>
    by_cases hk : hd.1 = k
    · simp [insertHeader, hk, headerGet]
    · simp [insertHeader, hk, headerGet, ih]

/-- Inserting a key already present does not grow the header map. -/
theorem insertHeader_length (hs : List (List Nat × List Nat))
    (k v : List Nat) (h : (headerGet hs k).isSome = true) :
    (insertHeader hs k v).length = hs.length := by
  induction hs with
  | nil => simp [headerGet] at h
  | cons hd t ih =>
    by_cases hk : hd.1 = k
    · simp [insertHeader, hk]
    · simp only [headerGet, if_neg hk] at h
      simp [insertHeader, hk, ih h]

/-- C9: a later header line whose name equals an earlier one after
case-insensitive canonicalization replaces the earlier value in the map
(neither appending nor failing), so the assembled message keeps only the
last value; concretely, Host then HOST leaves a single host entry holding
the later value. -/
theorem c9_last_value_wins :
    (∀ (hs : List (List Nat × List Nat)) (k v₁ v₂ : List Nat),
      headerGet (insertHeader (insertHeader hs k v₁) k v₂) k = some v₂ ∧
      (insertHeader (insertHeader hs k v₁) k v₂).length =
        (insertHeader hs k v₁).length) ∧
    parse MessageParser.new (str ("OPTIONS icap://x ICAP/1.0") ++ crlf ++
        str ("Host: a") ++ crlf ++ str ("HOST: b") ++ crlf ++ crlf) =
      Except.ok (some (IcapMessage.Request Method.Options (str ("icap://x"))
        Version.V1_0 [(str ("host"), str ("b"))] Encapsulated.NullBody),
        { MessageParser.new with
          method := some Method.Options
          uri := some (str ("icap://x"))
          version := some Version.V1_0 }) := by
  constructor
  · intro hs k v₁ v₂
    refine ⟨headerGet_insertHeader _ _ _, insertHeader_length _ _ _ ?_⟩
    rw [headerGet_insertHeader]
    rfl
  · rfl

/-- C10: an empty line (bare CRLF or bare LF) arriving in the StartLine
state is consumed without error, the parse call returns no message, and a
further call continues exactly as a fresh parse of the bytes after the
blank line, so blank lines before a start line are skipped and the
following message is still parsed. -/
theorem c10_blank_line_skipped (p : MessageParser) (rest : List Nat)
    (h1 : p.state = State.StartLine) (h2 : p.buffer = []) :
    parse p (13 :: 10 :: rest) = Except.ok (none, { p with buffer := rest }) ∧
    parse p (10 :: rest) = Except.ok (none, { p with buffer := rest }) ∧
    parse { p with buffer := rest } [] = parse p rest := by
  obtain ⟨st, hs0, enc, buf, m, u, ver, sta, rea, secs⟩ := p
  simp only at h1 h2
  subst h1; subst h2
  refine ⟨rfl, rfl, ?_⟩
  simp [parse]

/-- Witness for c10_blank_line_skipped at a concrete blank-line-led
buffer. -/
theorem c10_blank_line_skipped_witness :
    parse MessageParser.new (13 :: 10 :: str ("ICAP/1.0 200 OK")) =
      Except.ok (none,
        { MessageParser.new with buffer := str ("ICAP/1.0 200 OK") }) :=
  (c10_blank_line_skipped MessageParser.new (str ("ICAP/1.0 200 OK"))
    rfl rfl).1

/-- A StartLine-state parser whose buffer has no LF answers need-more-data
and is left unchanged. -/
theorem parse_of_no_lf (p : MessageParser)
    (h1 : p.state = State.StartLine) (h2 : ∀ b ∈ p.buffer, b ≠ 10) :
    readLine p.buffer = (none, p.buffer) ∧
    parse p [] = Except.ok (none, p) := by
  obtain ⟨st, hs0, enc, buf, m, u, ver, sta, rea, secs⟩ := p
  simp only at h1 h2
  subst h1
  have hf : findLF buf = none := findLF_eq_none h2
  refine ⟨by simp [readLine, hf], ?_⟩
  simp only [parse, List.append_nil]
  simp [parseFrom, runStartLine, parseStartLine, readLine, hf]

/-- C8 amended: the line reader reports need-more-data whenever the buffer
holds no LF byte, and parse then returns Ok(None); no line-length bound is
enforced, so an unterminated line of any length accumulates without
error (the source read_line has no size cap). -/
theorem c8_no_line_length_limit (p : MessageParser)
    (h1 : p.state = State.StartLine) (h2 : ∀ b ∈ p.buffer, b ≠ 10) :
    readLine p.buffer = (none, p.buffer) ∧
    parse p [] = Except.ok (none, p) :=
  parse_of_no_lf p h1 h2

/-- Witness for c8_no_line_length_limit: a five-thousand-byte unterminated
line is still pending, with no error. -/
theorem c8_no_line_length_limit_witness :
    readLine (List.replicate 5000 97) =
      (none, List.replicate 5000 97) ∧
    parse { MessageParser.new with buffer := List.replicate 5000 97 } [] =
      Except.ok (none,
        { MessageParser.new with buffer := List.replicate 5000 97 }) := by
  have h2 : ∀ b ∈ List.replicate 5000 97, b ≠ (10 : Nat) := by
    intro b hb
    rw [List.eq_of_mem_replicate hb]
    decide
  exact c8_no_line_length_limit
    { MessageParser.new with buffer := List.replicate 5000 97 } rfl h2

/-- C8 counterexample: the claim asserts that read_line errors once a line
exceeds roughly 4200 bytes; a five-thousand-byte LF-free buffer is instead
answered with Ok(None) and kept whole. -/
theorem c8_counterexample :
    parse { MessageParser.new with buffer := List.replicate 5000 97 } [] =
      Except.ok (none,
        { MessageParser.new with buffer := List.replicate 5000 97 }) := by
  have h2 : ∀ b ∈ List.replicate 5000 97, b ≠ (10 : Nat) := by
    intro b hb
    rw [List.eq_of_mem_replicate hb]
    decide
  exact (parse_of_no_lf
    { MessageParser.new with buffer := List.replicate 5000 97 } rfl h2).2

/-- C4 amended: the status token of a response start line is decoded as
UTF-8 and parsed as a decimal u16 with no further range restriction: every
representable value, including values outside 100 to 599, becomes the
message status, and only a token that fails u16 parsing (non-digits or a
value above 65535) yields the invalid-status error. -/
theorem c4_status_amended (t cps : List Nat) (sv : Nat)
    (hne : ∀ b ∈ t, b ≠ 32 ∧ b ≠ 10)
    (hdec : utf8Decode t = some cps) :
    (parseU16 cps = some sv →
      parse MessageParser.new (str ("ICAP/1.0 ") ++ t ++ str (" OK") ++ crlf) =
        Except.ok (none, { MessageParser.new with
          state := State.Headers
          version := some Version.V1_0
          status := some sv
          reason := some (str ("OK")) })) ∧
    (parseU16 cps = none →
      parse MessageParser.new (str ("ICAP/1.0 ") ++ t ++ str (" OK") ++ crlf) =
        Except.error Error.invalidStatus) := by
  have ht32 : ∀ b ∈ t, b ≠ 32 := fun b hb => (hne b hb).1
  have ht10 : ∀ b ∈ t, b ≠ 10 := fun b hb => (hne b hb).2
  have hno10 : ∀ b ∈ str ("ICAP/1.0 ") ++ t ++ str (" OK"), b ≠ 10 := by
    intro b hb
    rcases List.mem_append.mp hb with hb1 | hb2
    · rcases List.mem_append.mp hb1 with hb3 | hb4
      · simp [str] at hb3; omega
      · exact ht10 b hb4
    · simp [str] at hb2; omega
  have hr : readLine (str ("ICAP/1.0 ") ++ t ++ str (" OK") ++ crlf) =
      (some (str ("ICAP/1.0 ") ++ t ++ str (" OK")), []) := by
    have h0 := readLine_crlf (str ("ICAP/1.0 ") ++ t ++ str (" OK")) [] hno10
    simpa [crlf] using h0
  have e1 : str ("ICAP/1.0 ") ++ t ++ str (" OK") =
      str ("ICAP/1.0") ++ 32 :: (t ++ 32 :: str ("OK")) := by
    simp [str, List.append_assoc]
  have h32A : ∀ b ∈ str ("ICAP/1.0"), b ≠ 32 := by decide
  have h32B : ∀ b ∈ str ("OK"), b ≠ 32 := by decide
  have hsplit : splitOnByte 32 (str ("ICAP/1.0 ") ++ t ++ str (" OK")) =
      [str ("ICAP/1.0"), t, str ("OK")] := by
    rw [e1, splitOnByte_sep 32 (str ("ICAP/1.0")) _ h32A,
      splitOnByte_sep 32 t _ ht32, splitOnByte_no_sep h32B]
  have hne0 : ¬(str ("ICAP/1.0 ") ++ t ++ str (" OK") = []) := by
    simp [str]
  constructor
  · intro hp
    simp only [parse, parseFrom, MessageParser.new, List.nil_append]
    simp only [runStartLine, parseStartLine, hr, hsplit, if_neg hne0, hdec, hp]
    simp [runHeaders, parseHeaders, parseHeadersGo, readLine, findLF,
      parseVersion, str, utf8Decode, utf8DecodeGo, parseU16, decNat]
  · intro hp
    simp only [parse, parseFrom, MessageParser.new, List.nil_append]
    simp only [runStartLine, parseStartLine, hr, hsplit, if_neg hne0, hdec, hp]
    simp [parseVersion, str, utf8Decode, utf8DecodeGo]

/-- Witness for c4_status_amended: 99 is accepted as a status and a
six-digit token overflows u16 into invalid-status. -/
theorem c4_status_amended_witness :
    parse MessageParser.new (str ("ICAP/1.0 ") ++ [57, 57] ++ str (" OK") ++ crlf) =
      Except.ok (none, { MessageParser.new with
        state := State.Headers
        version := some Version.V1_0
        status := some 99
        reason := some (str ("OK")) }) ∧
    parse MessageParser.new
        (str ("ICAP/1.0 ") ++ [57, 57, 57, 57, 57, 57] ++ str (" OK") ++ crlf) =
      Except.error Error.invalidStatus :=
  ⟨(c4_status_amended [57, 57] [57, 57] 99 (by decide) (by decide)).1 (by decide),
   (c4_status_amended [57, 57, 57, 57, 57, 57] [57, 57, 57, 57, 57, 57] 0
      (by decide) (by decide)).2 (by decide)⟩

/-- C4 counterexample: the claim requires 99 and 600 to be rejected as
invalid-status, but the source performs no range check: both parse calls
succeed and store the out-of-range status. -/
theorem c4_counterexample :
    parse MessageParser.new (str ("ICAP/1.0 99 OK") ++ crlf) =
      Except.ok (none, { MessageParser.new with
        state := State.Headers
        version := some Version.V1_0
        status := some 99
        reason := some (str ("OK")) }) ∧
    parse MessageParser.new (str ("ICAP/1.0 600 OK") ++ crlf) =
      Except.ok (none, { MessageParser.new with
        state := State.Headers
        version := some Version.V1_0
        status := some 600
        reason := some (str ("OK")) }) := ⟨rfl, rfl⟩

/-- C6 amended: a start-line token of at least eight bytes is accepted as
a version exactly when its first eight bytes are ICAP/1.0 or ICAP/1.1,
with any trailing bytes ignored rather than rejected; a token of at least
eight bytes beginning with ICAP/ that matches neither is an
invalid-version error; and a token shorter than eight bytes is never
classified as a response, even when it begins with ICAP/, so it falls
through to request-method matching. -/
theorem c6_version_amended (t : List Nat)
    (hne : ∀ b ∈ t, b ≠ 32 ∧ b ≠ 10) :
    (8 ≤ t.length → t.take 8 = str ("ICAP/1.0") →
      parse MessageParser.new (t ++ str (" 200 OK") ++ crlf) =
        Except.ok (none, { MessageParser.new with
          state := State.Headers
          version := some Version.V1_0
          status := some 200
          reason := some (str ("OK")) })) ∧
    (8 ≤ t.length → t.take 8 = str ("ICAP/1.1") →
      parse MessageParser.new (t ++ str (" 200 OK") ++ crlf) =
        Except.ok (none, { MessageParser.new with
          state := State.Headers
          version := some Version.V1_1
          status := some 200
          reason := some (str ("OK")) })) ∧
    (8 ≤ t.length → t.take 8 ≠ str ("ICAP/1.0") → t.take 8 ≠ str ("ICAP/1.1") →
      t.take 5 = str ("ICAP/") →
      parse MessageParser.new (t ++ str (" 200 OK") ++ crlf) =
        Except.error (Error.invalidVersion ("Invalid version"))) ∧
    (t.length < 8 → t ≠ str ("REQMOD") → t ≠ str ("RESPMOD") →
      t ≠ str ("OPTIONS") →
      parse MessageParser.new (t ++ str (" 200 OK") ++ crlf) =
        Except.error (Error.invalidMethod ("Invalid method"))) := by
  have ht32 : ∀ b ∈ t, b ≠ 32 := fun b hb => (hne b hb).1
  have ht10 : ∀ b ∈ t, b ≠ 10 := fun b hb => (hne b hb).2
  have hno10 : ∀ b ∈ t ++ str (" 200 OK"), b ≠ 10 := by
    intro b hb
    rcases List.mem_append.mp hb with hb1 | hb2
    · exact ht10 b hb1
    · simp [str] at hb2; omega
  have hr : readLine (t ++ str (" 200 OK") ++ crlf) =
      (some (t ++ str (" 200 OK")), []) := by
    have h0 := readLine_crlf (t ++ str (" 200 OK")) [] hno10
    simpa [crlf, List.append_assoc] using h0
  have e1 : t ++ str (" 200 OK") = t ++ 32 :: str ("200 OK") := rfl
  have hsplit : splitOnByte 32 (t ++ str (" 200 OK")) =
      [t, str ("200"), str ("OK")] := by
    rw [e1, splitOnByte_sep 32 t _ ht32]
    rfl
  have hne0 : ¬(t ++ str (" 200 OK") = []) := by simp [str]
  refine ⟨fun hl h8 => ?_, fun hl h8 => ?_, fun hl h0 h1 h5 => ?_,
    fun hl hm1 hm2 hm3 => ?_⟩
  · simp only [parse, parseFrom, MessageParser.new, List.nil_append]
    simp only [runStartLine, parseStartLine, hr, hsplit, if_neg hne0]
    simp only [parseVersion, if_neg (by omega : ¬t.length < 8), if_pos h8]
    rfl
  · simp only [parse, parseFrom, MessageParser.new, List.nil_append]
    simp only [runStartLine, parseStartLine, hr, hsplit, if_neg hne0]
    have h80 : t.take 8 ≠ str ("ICAP/1.0") := by
      rw [h8]; decide
    simp only [parseVersion, if_neg (by omega : ¬t.length < 8),
      if_neg h80, if_pos h8]
    rfl
  · simp only [parse, parseFrom, MessageParser.new, List.nil_append]
    simp only [runStartLine, parseStartLine, hr, hsplit, if_neg hne0]
    simp only [parseVersion, if_neg (by omega : ¬t.length < 8),
      if_neg h0, if_neg h1, if_pos h5]
  · simp only [parse, parseFrom, MessageParser.new, List.nil_append]
    simp only [runStartLine, parseStartLine, hr, hsplit, if_neg hne0]
    simp only [parseVersion, if_pos hl, if_neg hm1, if_neg hm2, if_neg hm3]

/-- Witness for c6_version_amended: a token with trailing bytes after
ICAP/1.0 is accepted, ICAP/2.0 is an invalid version, and the short token
ICAP/1 falls through to the invalid-method error of the request path. -/
theorem c6_version_amended_witness :
    parse MessageParser.new (str ("ICAP/1.0xyz") ++ str (" 200 OK") ++ crlf) =
      Except.ok (none, { MessageParser.new with
        state := State.Headers
        version := some Version.V1_0
        status := some 200
        reason := some (str ("OK")) }) ∧
    parse MessageParser.new (str ("ICAP/2.0") ++ str (" 200 OK") ++ crlf) =
      Except.error (Error.invalidVersion ("Invalid version")) ∧
    parse MessageParser.new (str ("ICAP/1") ++ str (" 200 OK") ++ crlf) =
      Except.error (Error.invalidMethod ("Invalid method")) :=
  ⟨(c6_version_amended (str ("ICAP/1.0xyz")) (by decide)).1 (by decide) (by decide),
   (c6_version_amended (str ("ICAP/2.0")) (by decide)).2.2.1 (by decide)
     (by decide) (by decide) (by decide),
   (c6_version_amended (str ("ICAP/1")) (by decide)).2.2.2 (by decide)
     (by decide) (by decide) (by decide)⟩

/-- C6 counterexample: the claim requires a token with trailing bytes
after ICAP/1.0 to be an invalid-version error and every token led by the five bytes of ICAP
and a slash to be classified as a response; the source accepts ICAP/1.0X as version 1.0,
and routes the seven-byte token ICAP/1 through the request path to an
invalid-method error instead of a version error. -/
theorem c6_counterexample :
    parse MessageParser.new (str ("ICAP/1.0X 200 OK") ++ crlf) =
      Except.ok (none, { MessageParser.new with
        state := State.Headers
        version := some Version.V1_0
        status := some 200
        reason := some (str ("OK")) }) ∧
    parse MessageParser.new (str ("ICAP/1 200 OK") ++ crlf) =
      Except.error (Error.invalidMethod ("Invalid method")) := ⟨rfl, rfl⟩

/-- C7: when the header block ends at an empty line with no Encapsulated
header seen, a request with method ReqMod or RespMod fails with the
missing-encapsulated protocol error, while an Options request or a
response is accepted and assembles a message whose encapsulation variant
is NullBody. -/
theorem c7_missing_encapsulated (p : MessageParser) (u r : List Nat)
    (v : Version) (st : Nat)
    (h1 : p.state = State.Headers) (h2 : p.buffer = crlf)
    (h3 : headerGet p.headers (str ("encapsulated")) = none)
    (h4 : p.encapsulated = []) (h5 : p.sections = []) :
    ((p.method = some Method.ReqMod ∨ p.method = some Method.RespMod) →
      p.status = none →
      parse p [] = Except.error (Error.protocol ("Missing encapsulated header"))) ∧
    (p.method = some Method.Options → p.status = none → p.uri = some u →
      p.version = some v →
      parse p [] = Except.ok (some (IcapMessage.Request Method.Options u v
        p.headers Encapsulated.NullBody),
        { p with
          state := State.StartLine
          headers := []
          encapsulated := []
          buffer := [] })) ∧
    (p.method = none → p.status = some st → p.reason = some r →
      p.version = some v →
      parse p [] = Except.ok (some (IcapMessage.Response v st r
        p.headers Encapsulated.NullBody),
        { p with
          state := State.StartLine
          headers := []
          encapsulated := []
          buffer := [] })) := by
  obtain ⟨st0, hs0, enc, buf, m, u0, ver, sta, rea, secs⟩ := p
  simp only at h1 h2 h3 h4 h5
  subst h1; subst h2; subst h4; subst h5
  refine ⟨fun hm hsta => ?_, fun hm hsta hu hv => ?_, fun hm hsta hr hv => ?_⟩
  · simp only at hm hsta
    rcases hm with hm | hm
    · subst hm; subst hsta; rfl
    · subst hm; subst hsta; rfl
  · simp only at hm hsta hu hv
    subst hm; subst hsta; subst hu; subst hv
    show runEncapsulated ⟨State.EncapsulatedHeader, hs0, [], [],
      some Method.Options, some u, some v, none, rea, []⟩ = _
    simp only [runEncapsulated, parseEncapsulated, h3]
    rfl
  · simp only at hm hsta hr hv
    subst hm; subst hsta; subst hr; subst hv
    show runEncapsulated ⟨State.EncapsulatedHeader, hs0, [], [],
      none, u0, some v, some st, some r, []⟩ = _
    simp only [runEncapsulated, parseEncapsulated, h3]
    rfl

/-- Witness for c7_missing_encapsulated on three concrete parsers that
just consumed a start line and face a bare empty line: a ReqMod request
errors, an Options request and a response complete with NullBody. -/
theorem c7_missing_encapsulated_witness :
    parse ⟨State.Headers, [], [], crlf, some Method.ReqMod,
        some (str ("icap://x")), some Version.V1_0, none, none, []⟩ [] =
      Except.error (Error.protocol ("Missing encapsulated header")) ∧
    parse ⟨State.Headers, [], [], crlf, some Method.Options,
        some (str ("icap://x")), some Version.V1_0, none, none, []⟩ [] =
      Except.ok (some (IcapMessage.Request Method.Options (str ("icap://x"))
        Version.V1_0 [] Encapsulated.NullBody),
        ⟨State.StartLine, [], [], [], some Method.Options,
          some (str ("icap://x")), some Version.V1_0, none, none, []⟩) ∧
    parse ⟨State.Headers, [], [], crlf, none, none, some Version.V1_0,
        some 200, some (str ("OK")), []⟩ [] =
      Except.ok (some (IcapMessage.Response Version.V1_0 200 (str ("OK"))
        [] Encapsulated.NullBody),
        ⟨State.StartLine, [], [], [], none, none, some Version.V1_0,
          some 200, some (str ("OK")), []⟩) :=
  ⟨(c7_missing_encapsulated ⟨State.Headers, [], [], crlf, some Method.ReqMod,
      some (str ("icap://x")), some Version.V1_0, none, none, []⟩
      [] [] Version.V1_0 0 rfl rfl rfl rfl rfl).1 (Or.inl rfl) rfl,
   (c7_missing_encapsulated ⟨State.Headers, [], [], crlf, some Method.Options,
      some (str ("icap://x")), some Version.V1_0, none, none, []⟩
      (str ("icap://x")) [] Version.V1_0 0 rfl rfl rfl rfl rfl).2.1
      rfl rfl rfl rfl,
   (c7_missing_encapsulated ⟨State.Headers, [], [], crlf, none, none,
      some Version.V1_0, some 200, some (str ("OK")), []⟩
      [] (str ("OK")) Version.V1_0 200 rfl rfl rfl rfl rfl).2.2
      rfl rfl rfl rfl⟩

/-- REQMOD request head declaring a chunked request body at offset 0. -/
def reqmodHead : List Nat :=
  str ("REQMOD icap://x/ ICAP/1.0") ++ crlf ++
    str ("Encapsulated: req-body=0") ++ crlf ++ crlf

/-- First push: the head plus one complete five-byte chunk, with no
terminating zero chunk yet. -/
def c1Chunk1 : List Nat :=
  reqmodHead ++ str ("5") ++ crlf ++ str ("hello") ++ crlf

/-- Second push: the second chunk and the terminating zero chunk. -/
def c1Chunk2 : List Nat :=
  str ("5") ++ crlf ++ str ("world") ++ crlf ++ str ("0") ++ crlf ++ crlf

/-- Parser value left behind after the REQMOD message completes. -/
def c1After : MessageParser :=
  { MessageParser.new with
    method := some Method.ReqMod
    uri := some (str ("icap://x/"))
    version := some Version.V1_0
    sections := [(SectionType.RequestBody, 0)] }

/-- Header map of the REQMOD message. -/
def c1Headers : List (List Nat × List Nat) :=
  [(str ("encapsulated"), str ("req-body=0"))]

/-- C1 divergence: the well-formed stream c1Chunk1 with c1Chunk2 parsed in
one push yields the full body helloworld, but pushing c1Chunk1 alone
already completes a message with the truncated body hello instead of
answering need-more-data, so the chunked feed returns a different message
sequence than the one-shot feed. -/
theorem c1_stream_divergence :
    parse MessageParser.new (c1Chunk1 ++ c1Chunk2) =
      Except.ok (some (IcapMessage.Request Method.ReqMod (str ("icap://x/"))
        Version.V1_0 c1Headers
        (Encapsulated.RequestOnly none (some (str ("helloworld"))))),
        c1After) ∧
    parse MessageParser.new c1Chunk1 =
      Except.ok (some (IcapMessage.Request Method.ReqMod (str ("icap://x/"))
        Version.V1_0 c1Headers
        (Encapsulated.RequestOnly none (some (str ("hello"))))),
        c1After) ∧
    (IcapMessage.Request Method.ReqMod (str ("icap://x/")) Version.V1_0
        c1Headers (Encapsulated.RequestOnly none (some (str ("helloworld"))))) ≠
      (IcapMessage.Request Method.ReqMod (str ("icap://x/")) Version.V1_0
        c1Headers (Encapsulated.RequestOnly none (some (str ("hello"))))) :=
  ⟨rfl, rfl, by decide⟩

/-- Null-body response message bytes. -/
def c2Msg1 : List Nat :=
  str ("ICAP/1.0 200 OK") ++ crlf ++
    str ("Encapsulated: null-body=0") ++ crlf ++ crlf

/-- Complete OPTIONS request bytes for the following message. -/
def c2Msg2 : List Nat :=
  str ("OPTIONS icap://x ICAP/1.0") ++ crlf ++ str ("Host: a") ++ crlf ++ crlf

/-- Parser value left behind after the null-body response completes: the
buffer is empty and the status, reason, version and section table of the
finished message are still set. -/
def c2After : MessageParser :=
  { MessageParser.new with
    version := some Version.V1_0
    status := some 200
    reason := some (str ("OK"))
    sections := [(SectionType.NullBody, 0)] }

/-- The completed null-body response. -/
def c2Resp : IcapMessage :=
  IcapMessage.Response Version.V1_0 200 (str ("OK"))
    [(str ("encapsulated"), str ("null-body=0"))] Encapsulated.NullBody

/-- C2 divergence: completing a message leaves the status and the section
table set and clears the whole receive buffer, so a second message pushed
together with the first is discarded rather than retained, and a following
request is answered with the invalid-message protocol error because the
stale status of the finished response is still present. -/
theorem c2_state_not_reset :
    parse MessageParser.new (c2Msg1 ++ c2Msg2) =
      Except.ok (some c2Resp, c2After) ∧
    parse MessageParser.new c2Msg1 = Except.ok (some c2Resp, c2After) ∧
    c2After.buffer = [] ∧
    c2After.status = some 200 ∧
    c2After.sections = [(SectionType.NullBody, 0)] ∧
    parse c2After c2Msg2 = Except.error (Error.protocol ("Invalid message")) :=
  ⟨rfl, rfl, rfl, rfl, rfl, rfl⟩

/-- RESPMOD request whose response-body range ends right after one
complete non-zero chunk, with no terminating zero chunk. -/
def c3Msg : List Nat :=
  str ("RESPMOD icap://x/ ICAP/1.0") ++ crlf ++
    str ("Encapsulated: res-body=0") ++ crlf ++ crlf ++
    str ("5") ++ crlf ++ str ("hello") ++ crlf

/-- OPTIONS request whose options-body range holds bytes that are not even
chunk-encoded. -/
def c3OptMsg : List Nat :=
  str ("OPTIONS icap://x ICAP/1.0") ++ crlf ++
    str ("Encapsulated: opt-body=0") ++ crlf ++ crlf ++ str ("abc")

/-- C3 evaluation at the failing inputs: a response-body range with no
terminating zero chunk still completes the message with the partial body
hello instead of returning Ok(None), and an options-body section is
copied raw, never chunk-decoded at all. -/
theorem c3_incomplete_body_completes :
    parse MessageParser.new c3Msg =
      Except.ok (some (IcapMessage.Request Method.RespMod (str ("icap://x/"))
        Version.V1_0 [(str ("encapsulated"), str ("res-body=0"))]
        (Encapsulated.ResponseOnly none (some (str ("hello"))))),
        { MessageParser.new with
          method := some Method.RespMod
          uri := some (str ("icap://x/"))
          version := some Version.V1_0
          sections := [(SectionType.ResponseBody, 0)] }) ∧
    parse MessageParser.new c3OptMsg =
      Except.ok (some (IcapMessage.Request Method.Options (str ("icap://x"))
        Version.V1_0 [(str ("encapsulated"), str ("opt-body=0"))]
        (Encapsulated.Options (some (str ("abc"))))),
        { MessageParser.new with
          method := some Method.Options
          uri := some (str ("icap://x"))
          version := some Version.V1_0
          sections := [(SectionType.OptionsBody, 0)] }) :=
  ⟨rfl, rfl⟩

/-- Splitting at the first separator after a separator-free block yields
that block and the tail. -/
theorem splitFirst_found (c : Nat) (name value : List Nat)
    (h : ∀ b ∈ name, b ≠ c) :
    splitFirst c (name ++ c :: value) = (name, some value) := by
  induction name with
  | nil => simp [splitFirst]
  | cons a t ih =>
    simp only [List.cons_append, splitFirst, List.append_eq]
    rw [if_neg (h a (List.mem_cons_self a t))]
    rw [ih (fun b hb => h b (List.mem_cons_of_mem a hb))]

/-- Lossy UTF-8 decoding is the identity on ASCII byte lists, at any
sufficient fuel. -/
theorem utf8LossyGo_ascii (fuel : Nat) :
    ∀ (l : List Nat), l.length ≤ fuel → (∀ b ∈ l, b ≤ 127) →
      utf8LossyGo fuel l = l := by
  induction fuel with
  | zero =>
    intro l hl _
    cases l with
    | nil => rfl
    | cons a t => simp at hl
  | succ f ih =>
    intro l hl hb
    cases l with
    | nil => rfl
    | cons a t =>
      simp only [utf8LossyGo]
      rw [if_pos (hb a (List.mem_cons_self a t))]
      rw [ih t (by simp at hl; omega)
        (fun b hbm => hb b (List.mem_cons_of_mem a hbm))]

/-- Lossy UTF-8 decoding is the identity on ASCII byte lists. -/
theorem lossy_ascii (l : List Nat) (h : ∀ b ∈ l, b ≤ 127) :
    lossyDecode l = l :=
  utf8LossyGo_ascii l.length l le_rfl h

/-- dropWhile removes nothing from a list none of whose members satisfy
the predicate. -/
theorem dropWhile_eq_self (p : Nat → Bool) (l : List Nat)
    (h : ∀ b ∈ l, p b = false) : l.dropWhile p = l := by
  cases l with
  | nil => rfl
  | cons a t => simp [List.dropWhile, h a (List.mem_cons_self a t)]

/-- Trimming a list free of whitespace changes nothing. -/
theorem rustTrim_eq_self (l : List Nat)
    (h : ∀ b ∈ l, isRustWhitespace b = false) : rustTrim l = l := by
  unfold rustTrim
  rw [dropWhile_eq_self _ _ h]
  rw [dropWhile_eq_self _ _ (fun b hb => h b (List.mem_reverse.mp hb))]
  exact List.reverse_reverse l

/-- A nonempty all-b name is a valid header name and is its own
canonical form. -/
theorem headerName_replicate (m : Nat) (hm : 1 ≤ m) :
    headerNameFromBytes (List.replicate m 98) =
      some (List.replicate m 98) := by
  unfold headerNameFromBytes
  rw [if_pos ?_]
  · rw [List.map_replicate]
    rfl
  · constructor
    · intro h
      have := congrArg List.length h
      simp at this
      omega
    · rw [List.all_eq_true]
      intro b hb
      rw [List.eq_of_mem_replicate hb]
      decide

/-- An all-a value is a valid header value. -/
theorem headerValueOk_replicate (n : Nat) :
    headerValueOk (List.replicate n 97) = true := by
  unfold headerValueOk
  rw [List.all_eq_true]
  intro b hb
  rw [List.eq_of_mem_replicate hb]
  decide

/-- One parse_headers step on an Options-request parser facing a bare
empty line: the header block closes and the state advances, for any
found flag. -/
theorem stepEmptyOptions (k : Nat) (HS : List (List Nat × List Nat))
    (u : List Nat) (f : Bool) :
    parseHeadersGo (k + 1) ⟨State.Headers, HS, [], crlf, some Method.Options,
        some u, some Version.V1_0, none, none, []⟩ f =
      Except.ok (true, ⟨State.EncapsulatedHeader, HS, [], [],
        some Method.Options, some u, some Version.V1_0, none, none, []⟩) := by
  cases f <;> rfl

/-- OPTIONS request start line used by the size-limit scenarios. -/
def optionsHead : List Nat := str ("OPTIONS icap://x ICAP/1.0") ++ crlf

/-- OPTIONS message with one header line whose raw post-colon value is n
bytes of the letter a. -/
def c5ValueMsg (n : Nat) : List Nat :=
  optionsHead ++ ((str ("a:") ++ List.replicate n 97) ++ (13 :: 10 :: crlf))

/-- A raw value of at most 4096 bytes is accepted and the message
completes with that value stored. -/
theorem c5ValueAccept (n : Nat) (hn : ¬4096 < n) :
    parse MessageParser.new (c5ValueMsg n) =
      Except.ok (some (IcapMessage.Request Method.Options (str ("icap://x"))
        Version.V1_0 [([97], List.replicate n 97)] Encapsulated.NullBody),
        { MessageParser.new with
          method := some Method.Options
          uri := some (str ("icap://x"))
          version := some Version.V1_0 }) := by
  have hno10 : ∀ b ∈ str ("a:") ++ List.replicate n 97, b ≠ 10 := by
    intro b hb
    rcases List.mem_append.mp hb with hb1 | hb2
    · simp [str] at hb1; omega
    · rw [List.eq_of_mem_replicate hb2]; decide
  have hreadline := readLine_crlf (str ("a:") ++ List.replicate n 97) crlf hno10
  have hflen : ((str ("a:") ++ List.replicate n 97) ++ (13 :: 10 :: crlf)).length
      = n + 6 := by
    simp [str, crlf]
  have hAne : ¬(str ("a:") ++ List.replicate n 97 = []) := by simp [str]
  have hsf : splitFirst 58 (str ("a:") ++ List.replicate n 97) =
      ([97], some (List.replicate n 97)) := by
    rw [show str ("a:") ++ List.replicate n 97 =
          [97] ++ 58 :: List.replicate n 97 from rfl,
      splitFirst_found 58 [97] (List.replicate n 97) (by decide)]
  have hlossy : lossyDecode (List.replicate n 97) = List.replicate n 97 :=
    lossy_ascii _ (fun b hb => by rw [List.eq_of_mem_replicate hb]; decide)
  have htrim : rustTrim (List.replicate n 97) = List.replicate n 97 :=
    rustTrim_eq_self _ (fun b hb => by rw [List.eq_of_mem_replicate hb]; decide)
  show runHeaders ⟨State.Headers, [], [],
    (str ("a:") ++ List.replicate n 97) ++ (13 :: 10 :: crlf),
    some Method.Options, some (str ("icap://x")), some Version.V1_0,
    none, none, []⟩ = _
  simp only [runHeaders, parseHeaders]
  rw [hflen]
  rw [parseHeadersGo.eq_2]
  simp only [hreadline, if_neg hAne, hsf]
  simp only [List.length_singleton, List.length_replicate]
  rw [if_neg (by omega : ¬(1 : Nat) > 100), if_neg (by omega : ¬n > 4096)]
  simp only [show headerNameFromBytes [97] = some [97] from rfl]
  rw [hlossy, htrim]
  simp only [headerValueOk_replicate, if_pos rfl]
  simp only [insertHeader, List.length_singleton]
  rw [if_neg (by omega : ¬(1 : Nat) > 100)]
  rw [show n + 6 = (n + 5) + 1 from rfl, stepEmptyOptions (n + 5)]
  rfl

/-- Any raw post-colon value longer than 4096 bytes is rejected as too
large, before any trimming or decoding of the value. -/
theorem c5ValueReject (v : List Nat) (hv : ∀ b ∈ v, b ≠ 10)
    (hlong : 4096 < v.length) :
    parse MessageParser.new
        (optionsHead ++ ((str ("a:") ++ v) ++ (13 :: 10 :: crlf))) =
      Except.error (Error.protocol ("Message too large")) := by
  have hno10 : ∀ b ∈ str ("a:") ++ v, b ≠ 10 := by
    intro b hb
    rcases List.mem_append.mp hb with hb1 | hb2
    · simp [str] at hb1; omega
    · exact hv b hb2
  have hreadline := readLine_crlf (str ("a:") ++ v) crlf hno10
  have hAne : ¬(str ("a:") ++ v = []) := by simp [str]
  have hsf : splitFirst 58 (str ("a:") ++ v) = ([97], some v) := by
    rw [show str ("a:") ++ v = [97] ++ 58 :: v from rfl,
      splitFirst_found 58 [97] v (by decide)]
  show runHeaders ⟨State.Headers, [], [],
    (str ("a:") ++ v) ++ (13 :: 10 :: crlf),
    some Method.Options, some (str ("icap://x")), some Version.V1_0,
    none, none, []⟩ = _
  simp only [runHeaders, parseHeaders]
  rw [parseHeadersGo.eq_2]
  simp only [hreadline, if_neg hAne, hsf]
  simp only [List.length_singleton]
  rw [if_neg (by omega : ¬(1 : Nat) > 100), if_pos (by omega : v.length > 4096)]

/-- OPTIONS message with one header line whose raw name is m bytes of
the letter b. -/
def c5NameMsg (m : Nat) : List Nat :=
  optionsHead ++ ((List.replicate m 98 ++ (58 :: str (" v"))) ++ (13 :: 10 :: crlf))

/-- A raw name of at most 100 bytes is accepted and the message
completes with that name stored. -/
theorem c5NameAccept (m : Nat) (hm1 : 1 ≤ m) (hm : ¬100 < m) :
    parse MessageParser.new (c5NameMsg m) =
      Except.ok (some (IcapMessage.Request Method.Options (str ("icap://x"))
        Version.V1_0 [(List.replicate m 98, [118])] Encapsulated.NullBody),
        { MessageParser.new with
          method := some Method.Options
          uri := some (str ("icap://x"))
          version := some Version.V1_0 }) := by
  have hno10 : ∀ b ∈ List.replicate m 98 ++ (58 :: str (" v")), b ≠ 10 := by
    intro b hb
    rcases List.mem_append.mp hb with hb1 | hb2
    · rw [List.eq_of_mem_replicate hb1]; decide
    · simp [str] at hb2; omega
  have hreadline := readLine_crlf (List.replicate m 98 ++ (58 :: str (" v")))
    crlf hno10
  have hflen : ((List.replicate m 98 ++ (58 :: str (" v"))) ++
      (13 :: 10 :: crlf)).length = m + 7 := by
    simp [str, crlf]
  have hAne : ¬(List.replicate m 98 ++ (58 :: str (" v")) = []) := by
    simp
  have hsf : splitFirst 58 (List.replicate m 98 ++ (58 :: str (" v"))) =
      (List.replicate m 98, some (str (" v"))) :=
    splitFirst_found 58 (List.replicate m 98) (str (" v"))
      (fun b hb => by rw [List.eq_of_mem_replicate hb]; decide)
  have hne : List.replicate m 98 ≠ str ("encapsulated") := by
    cases m with
    | zero => omega
    | succ k => simp [List.replicate_succ, str]
  show runHeaders ⟨State.Headers, [], [],
    (List.replicate m 98 ++ (58 :: str (" v"))) ++ (13 :: 10 :: crlf),
    some Method.Options, some (str ("icap://x")), some Version.V1_0,
    none, none, []⟩ = _
  simp only [runHeaders, parseHeaders]
  rw [hflen]
  rw [parseHeadersGo.eq_2]
  simp only [hreadline, if_neg hAne, hsf]
  simp only [List.length_replicate]
  rw [if_neg (by omega : ¬m > 100)]
  rw [if_neg (by simp [str] : ¬(str (" v")).length > 4096)]
  simp only [headerName_replicate m hm1]
  rw [if_pos (show headerValueOk (rustTrim (lossyDecode (str (" v")))) = true
    from rfl)]
  simp only [insertHeader, List.length_singleton]
  rw [if_neg (by omega : ¬(1 : Nat) > 100)]
  rw [show m + 7 = (m + 6) + 1 from rfl, stepEmptyOptions (m + 6)]
  simp only [runEncapsulated, parseEncapsulated, headerGet, if_neg hne]
  rfl

/-- A raw name longer than 100 bytes is rejected as too large. -/
theorem c5NameReject (m : Nat) (hm : 100 < m) :
    parse MessageParser.new (c5NameMsg m) =
      Except.error (Error.protocol ("Message too large")) := by
  have hno10 : ∀ b ∈ List.replicate m 98 ++ (58 :: str (" v")), b ≠ 10 := by
    intro b hb
    rcases List.mem_append.mp hb with hb1 | hb2
    · rw [List.eq_of_mem_replicate hb1]; decide
    · simp [str] at hb2; omega
  have hreadline := readLine_crlf (List.replicate m 98 ++ (58 :: str (" v")))
    crlf hno10
  have hAne : ¬(List.replicate m 98 ++ (58 :: str (" v")) = []) := by
    simp
  have hsf : splitFirst 58 (List.replicate m 98 ++ (58 :: str (" v"))) =
      (List.replicate m 98, some (str (" v"))) :=
    splitFirst_found 58 (List.replicate m 98) (str (" v"))
      (fun b hb => by rw [List.eq_of_mem_replicate hb]; decide)
  show runHeaders ⟨State.Headers, [], [],
    (List.replicate m 98 ++ (58 :: str (" v"))) ++ (13 :: 10 :: crlf),
    some Method.Options, some (str ("icap://x")), some Version.V1_0,
    none, none, []⟩ = _
  simp only [runHeaders, parseHeaders]
  rw [parseHeadersGo.eq_2]
  simp only [hreadline, if_neg hAne, hsf]
  simp only [List.length_replicate]
  rw [if_pos (by omega : m > 100)]

/-- Decimal digits of a natural number (fuel-based; the fuel dominates the
digit count). -/
def natDecimalGo : Nat → Nat → List Nat → List Nat
  | 0, n, acc => (48 + n % 10) :: acc
  | f + 1, n, acc =>
    if n < 10 then (48 + n) :: acc
    else natDecimalGo f (n / 10) ((48 + n % 10) :: acc)

/-- Decimal digit bytes of a natural number. -/
def natDecimal (n : Nat) : List Nat := natDecimalGo n n []

/-- n header lines with distinct names h0, h1, and so on, each with the
one-byte value v. -/
def mkHeaderLines (n : Nat) : List Nat :=
  (List.range n).foldr
    (fun i acc => str ("h") ++ natDecimal i ++ str (": v") ++ crlf ++ acc) []

/-- C5 counterexample: this header line carries a value of exactly 4096
bytes after the post-colon bytes are trimmed, so the claim requires it to
be accepted, yet parse rejects the message as too large: the source
checks the raw post-colon length, 4097 bytes here, before any trimming. -/
theorem c5_counterexample :
    rustTrim (lossyDecode ([32] ++ List.replicate 4096 97)) =
      List.replicate 4096 97 ∧
    parse MessageParser.new
        (optionsHead ++ ((str ("a:") ++ ([32] ++ List.replicate 4096 97)) ++
          (13 :: 10 :: crlf))) =
      Except.error (Error.protocol ("Message too large")) := by
  have hmem : ∀ b ∈ [32] ++ List.replicate 4096 97, b ≤ 127 := by
    intro b hb
    rcases List.mem_append.mp hb with h1 | h1
    · simp at h1; omega
    · rw [List.eq_of_mem_replicate h1]; decide
  have hmem10 : ∀ b ∈ [32] ++ List.replicate 4096 97, b ≠ 10 := by
    intro b hb
    rcases List.mem_append.mp hb with h1 | h1
    · simp at h1; omega
    · rw [List.eq_of_mem_replicate h1]; decide
  constructor
  · rw [lossy_ascii _ hmem]
    show rustTrim (32 :: List.replicate 4096 97) = _
    unfold rustTrim
    rw [List.dropWhile_cons]
    rw [if_pos (show isRustWhitespace 32 = true from rfl)]
    rw [dropWhile_eq_self isRustWhitespace (List.replicate 4096 97)
      (fun b hb => by rw [List.eq_of_mem_replicate hb]; decide)]
    rw [dropWhile_eq_self isRustWhitespace (List.replicate 4096 97).reverse
      (fun b hb => by rw [List.eq_of_mem_replicate (List.mem_reverse.mp hb)]
                      decide)]
    exact List.reverse_reverse _
  · exact c5ValueReject ([32] ++ List.replicate 4096 97) hmem10
      (by simp only [List.length_append, List.length_replicate,
        List.length_singleton]
          omega)

set_option maxRecDepth 1000000 in
/-- C5 amended: the three caps are enforced on raw byte lengths before any
trimming: a raw post-colon value of 4096 bytes is accepted and 4097 is a
message-too-large error; a raw name of 100 bytes is accepted and 101 is an
error; one hundred distinct headers are accepted and a one-hundred-first
is an error. -/
theorem c5_limits_amended :
    completes (parse MessageParser.new (c5ValueMsg 4096)) = true ∧
    parse MessageParser.new (c5ValueMsg 4097) =
      Except.error (Error.protocol ("Message too large")) ∧
    completes (parse MessageParser.new (c5NameMsg 100)) = true ∧
    parse MessageParser.new (c5NameMsg 101) =
      Except.error (Error.protocol ("Message too large")) ∧
    completes (parse MessageParser.new (optionsHead ++
      mkHeaderLines 100 ++ crlf)) = true ∧
    isTooLarge (parse MessageParser.new (optionsHead ++
      mkHeaderLines 101 ++ crlf)) = true := by
  refine ⟨?_, ?_, ?_, ?_, rfl, rfl⟩
  · rw [c5ValueAccept 4096 (by decide)]
    rfl
  · exact c5ValueReject (List.replicate 4097 97)
      (fun b hb => by rw [List.eq_of_mem_replicate hb]; decide)
      (by simp only [List.length_replicate]
          omega)
  · rw [c5NameAccept 100 (by decide) (by decide)]
    rfl
  · exact c5NameReject 101 (by decide)
